import Mathlib

/-!
# Verification of the Play Store dashboard data pipelines

A shallow embedding of `dashboard.py`.  Rows of the CSV are embedded as
records of `List Char` fields; numeric values produced by `float(...)`,
`pd.to_numeric` and the install sums are modelled as exact rationals (`ℚ`).
The two pipelines (`prepare_choropleth_data` and `prepare_time_series_data`),
the string-cleaning helpers they share, and the visibility gate are embedded
as executable functions below, and the theorems at the end of the file settle
the specified properties about them.
-/

namespace Dashboard

/-! ## Character-level helpers

All character tests are expressed through the code point `Char.toNat`,
mirroring the Python string operations used in `dashboard.py`. -/

/-- Models the regex character class `[0-9]` used by
`df['Installs'].str.contains('[0-9]')`. -/
def isDigitCh (c : Char) : Bool := 48 ≤ c.toNat && c.toNat ≤ 57

/-- Models the ASCII whitespace recognised by Python's `str.strip()`
(space, tab, newline, vertical tab, form feed, carriage return). -/
def isSpaceCh (c : Char) : Bool := c.toNat = 32 || (9 ≤ c.toNat && c.toNat ≤ 13)

/-- Models Python's `str.lower()` on a single character, on the ASCII range
(the only range the pipeline compares against: the literal `'free'`). -/
def lowerCh (c : Char) : Char :=
  if 65 ≤ c.toNat ∧ c.toNat ≤ 90 then Char.ofNat (c.toNat + 32) else c

/-- Models Python's `str.lower()`. -/
def pyLower (s : List Char) : List Char := s.map lowerCh

/-- Models Python's `str.strip()`: drop leading and trailing whitespace. -/
def pyStrip (s : List Char) : List Char :=
  ((s.dropWhile isSpaceCh).reverse.dropWhile isSpaceCh).reverse

/-- Models `str.replace('[+,]', '', regex=True)`: every `'+'` and `','`
character is removed, wherever it occurs. -/
def stripPlusComma (s : List Char) : List Char :=
  s.filter (fun c => !(c == '+' || c == ','))

/-- Models `str.contains('[0-9]', na=False)`: the text has a digit. -/
def containsDigit (s : List Char) : Bool := s.any isDigitCh

/-- Models `str.startswith((c₁, c₂, ...))` for a tuple of one-character
prefixes: the first character is one of the given characters (an empty
string starts with none of them). -/
def startsWithAny (s : List Char) (cs : List Char) : Bool :=
  match s with
  | [] => false
  | c :: _ => cs.contains c

/-- Models `str.contains('S', case=False)`: some character lowercases
to `'s'`. -/
def containsLetterS (s : List Char) : Bool := s.any (fun c => lowerCh c == 's')

/-! ## Numeric and date parsing -/

/-- Numeric value of a digit string, most significant digit first. -/
def digitsToNat (s : List Char) : Nat := s.foldl (fun n c => 10 * n + (c.toNat - 48)) 0

/-- Unsigned part of `float(...)`: an integer part and an optional
fractional part after `'.'`, at least one digit in total. -/
def pyFloatUnsigned (s : List Char) : Option ℚ :=
  let ip := s.takeWhile isDigitCh
  let rest := s.dropWhile isDigitCh
  match rest with
  | [] => if ip.isEmpty then none else some (digitsToNat ip : ℚ)
  | '.' :: fp =>
    if fp.all isDigitCh && !(ip.isEmpty && fp.isEmpty) then
      some ((digitsToNat ip : ℚ) + (digitsToNat fp : ℚ) / (10 : ℚ) ^ fp.length)
    else none
  | _ => none

/-- Models Python's `float(...)` applied to a string, restricted to the
decimal forms that the catalog data can take after cleaning: surrounding
whitespace, an optional sign, then digits with an optional fractional part.
Exponent forms, `inf` and `nan` never occur in the pipeline's inputs and
are outside the model; any text not of the above shape yields `none`,
matching the `except` branch of `clean_installs`. -/
def pyFloat (s : List Char) : Option ℚ :=
  match pyStrip s with
  | '+' :: rest => pyFloatUnsigned rest
  | '-' :: rest => (pyFloatUnsigned rest).map (fun q => -q)
  | t => pyFloatUnsigned t

/-- Models `pd.to_numeric(..., errors='coerce')` on one cell: the same
decimal grammar as `float(...)`, with `none` for unparseable text. -/
def to_numeric (s : List Char) : Option ℚ := pyFloat s

/-- A calendar date, as produced by `pd.to_datetime`. -/
structure Date where
  year : Nat
  month : Nat
  day : Nat
deriving DecidableEq, Repr

/-- A calendar month, the value of `dt.to_period('M')`. -/
structure Month where
  year : Nat
  mon : Nat
deriving DecidableEq, Repr

/-- Models `pd.to_datetime(..., errors='coerce')` on one cell, restricted
to the ISO `YYYY-MM-DD` shape used by the specified scenarios; pandas
accepts further formats, but every property below is preserved under a
parser that accepts fewer rows.  Unparseable text yields `none`. -/
def parseDate (s : List Char) : Option Date :=
  match pyStrip s with
  | [y1, y2, y3, y4, '-', m1, m2, '-', d1, d2] =>
    if [y1, y2, y3, y4, m1, m2, d1, d2].all isDigitCh then
      let m := digitsToNat [m1, m2]
      let d := digitsToNat [d1, d2]
      if 1 ≤ m ∧ m ≤ 12 ∧ 1 ≤ d ∧ d ≤ 31 then
        some ⟨digitsToNat [y1, y2, y3, y4], m, d⟩
      else none
    else none
  | _ => none

/-- Models `dt.to_period('M')`: the containing month. -/
def monthOf (d : Date) : Month := ⟨d.year, d.month⟩

/-- Models `.to_timestamp()` on a month period: the first day. -/
def monthStart (m : Month) : Date := ⟨m.year, m.mon, 1⟩

/-! ## Rows -/

/-- One raw CSV row, restricted to the columns the pipelines read. -/
structure RawRecord where
  app : List Char
  category : List Char
  installs : List Char
  reviews : List Char
  lastUpdated : List Char
deriving DecidableEq, Repr

/-- A row after install cleaning: `Installs` is numeric. -/
structure CRow where
  app : List Char
  category : List Char
  installs : ℚ
  reviews : List Char
  lastUpdated : List Char
deriving DecidableEq, Repr

/-- A growth-pipeline row after `pd.to_numeric` on `Reviews`.  The source
overwrites the `Reviews` column; `reviewsRaw` additionally retains the
original text so that the parsing contract can be stated about output
rows (it is never read by any later stage). -/
structure RRow where
  app : List Char
  category : List Char
  installs : ℚ
  reviews : ℚ
  reviewsRaw : List Char
  lastUpdated : List Char
deriving DecidableEq, Repr

/-- A growth-pipeline row with the `Translated_Category` column. -/
structure TRow where
  app : List Char
  category : List Char
  tcat : List Char
  installs : ℚ
  reviews : ℚ
  reviewsRaw : List Char
  lastUpdated : List Char
deriving DecidableEq, Repr

/-- A growth-pipeline row with `Last Updated` parsed and truncated to its
month. -/
structure DRow where
  app : List Char
  category : List Char
  tcat : List Char
  installs : ℚ
  reviews : ℚ
  reviewsRaw : List Char
  month : Month
deriving DecidableEq, Repr

/-- One row of the grouped time-series output `df_grouped`. -/
structure Bucket where
  month : Month
  tcat : List Char
  installs : ℚ
  mom : Option ℚ
  sig : Bool
deriving DecidableEq, Repr

/-! ## Install cleaning (shared head of both pipelines)

The source duplicates the same three steps at the head of
`prepare_choropleth_data` and `prepare_time_series_data`: keep rows whose
`Installs` text has a digit, remove `'+'` and `','`, then apply the local
function `clean_installs` and drop the rows where it returns `None`. -/

/-- The local `clean_installs` of `prepare_time_series_data`: the literal
(case-insensitive, stripped) value `'free'` maps to `None`, anything else
is given to `float(...)`, with `None` on failure. -/
def clean_installs_ts (x : List Char) : Option ℚ :=
  if pyLower (pyStrip x) = "free".data then none else pyFloat x

/-- The local `clean_installs` of `prepare_choropleth_data` (textually the
same function, duplicated in the source). -/
def clean_installs_geo (x : List Char) : Option ℚ :=
  if pyLower (pyStrip x) = "free".data then none else pyFloat x

/-- Install-cleaning stage of the growth pipeline: digit filter, `[+,]`
removal, `clean_installs`, `dropna`. -/
def installsStageTS (rows : List RawRecord) : List CRow :=
  ((rows.filter (fun r => containsDigit r.installs)).map
      (fun r => { r with installs := stripPlusComma r.installs })).filterMap
    (fun r => (clean_installs_ts r.installs).map
      (fun v => ⟨r.app, r.category, v, r.reviews, r.lastUpdated⟩))

/-- Install-cleaning stage of the geo pipeline (same steps, applied inside
`prepare_choropleth_data`). -/
def installsStageGeo (rows : List RawRecord) : List CRow :=
  ((rows.filter (fun r => containsDigit r.installs)).map
      (fun r => { r with installs := stripPlusComma r.installs })).filterMap
    (fun r => (clean_installs_geo r.installs).map
      (fun v => ⟨r.app, r.category, v, r.reviews, r.lastUpdated⟩))

/-- The value the install-cleaning head of the growth pipeline assigns to
one raw `Installs` text: `none` exactly when the row is dropped. -/
def installValueTS (s : List Char) : Option ℚ :=
  if containsDigit s then clean_installs_ts (stripPlusComma s) else none

/-- The value the install-cleaning head of the geo pipeline assigns to one
raw `Installs` text. -/
def installValueGeo (s : List Char) : Option ℚ :=
  if containsDigit s then clean_installs_geo (stripPlusComma s) else none

/-! ## Growth pipeline (`prepare_time_series_data`) -/

/-- `Reviews` stage: `pd.to_numeric(errors='coerce')`, `dropna`, keep
review counts strictly above 500. -/
def reviewsStageTS (l : List CRow) : List RRow :=
  (l.filterMap (fun r => (to_numeric r.reviews).map
      (fun v => ⟨r.app, r.category, r.installs, v, r.reviews, r.lastUpdated⟩))).filter
    (fun r => 500 < r.reviews)

/-- Category filter: keep categories starting with `'E'`, `'C'` or `'B'`. -/
def categoryStageTS (l : List RRow) : List RRow :=
  l.filter (fun r => startsWithAny r.category ['E', 'C', 'B'])

/-- App-name filter: drop apps whose lowercased name starts with `'x'`,
`'y'` or `'z'`, and apps containing the letter `'s'` case-insensitively. -/
def appStageTS (l : List RRow) : List RRow :=
  l.filter (fun r =>
    !(startsWithAny (pyLower r.app) ['x', 'y', 'z']) && !(containsLetterS r.app))

/-- The fixed localization table `translations` of the source. -/
def translations : List (List Char × List Char) :=
  [("Beauty".data, "सुंदरता".data),
   ("Business".data, "வர்த்தகம்".data),
   ("Dating".data, "Dating".data)]

/-- First-match lookup in an association list keyed by text. -/
def alookup {β : Type} : List (List Char × β) → List Char → Option β
  | [], _ => none
  | (k, v) :: rest, c => if k = c then some v else alookup rest c

/-- Models `df['Category'].map(translations).fillna(df['Category'])`:
codes absent from the table keep their original code. -/
def translate (c : List Char) : List Char :=
  match alookup translations c with
  | some t => t
  | none => c

/-- Localization stage: add the `Translated_Category` column. -/
def translateStageTS (l : List RRow) : List TRow :=
  l.map (fun r =>
    ⟨r.app, r.category, translate r.category, r.installs, r.reviews,
      r.reviewsRaw, r.lastUpdated⟩)

/-- Date stage: parse `Last Updated`, `dropna`, truncate to the month. -/
def dateStageTS (l : List TRow) : List DRow :=
  l.filterMap (fun r => (parseDate r.lastUpdated).map
    (fun d => ⟨r.app, r.category, r.tcat, r.installs, r.reviews,
      r.reviewsRaw, monthOf d⟩))

/-- Chronological order on months. -/
def monthLt (a b : Month) : Prop :=
  a.year < b.year ∨ (a.year = b.year ∧ a.mon < b.mon)

instance (a b : Month) : Decidable (monthLt a b) := by
  unfold monthLt; infer_instance

/-- Code-point lexicographic order on text, the order `sort` uses for
string group keys. -/
def lexLeB : List Char → List Char → Bool
  | [], _ => true
  | _ :: _, [] => false
  | a :: as, b :: bs =>
    if a.toNat < b.toNat then true
    else if b.toNat < a.toNat then false
    else lexLeB as bs

/-- The order `groupby(['Month', 'Translated_Category'])` sorts group keys
by: month first, then category text. -/
def keyRel (a b : Month × List Char) : Prop :=
  monthLt a.1 b.1 ∨ (a.1 = b.1 ∧ lexLeB a.2 b.2 = true)

instance (a b : Month × List Char) : Decidable (keyRel a b) := by
  unfold keyRel; infer_instance

/-- Group key of a dated row. -/
def groupKey (r : DRow) : Month × List Char := (r.month, r.tcat)

/-- Models `df.groupby(['Month', 'Translated_Category'])['Installs'].sum()
.reset_index()`: one row per distinct key, in sorted key order, carrying
the summed installs of the rows with that key. -/
def groupedPairs (l : List DRow) : List ((Month × List Char) × ℚ) :=
  (((l.map groupKey).dedup).insertionSort keyRel).map
    (fun k => (k, ((l.filter (fun r => groupKey r = k)).map (fun r => r.installs)).sum))

/-- `pct_change` of one value against the previous value of its group. -/
def momOf (prev : Option ℚ) (v : ℚ) : Option ℚ :=
  prev.map (fun p => (v - p) / p)

/-- `Significant_Growth`: `MoM_Growth > 0.20`, false where `MoM_Growth`
is absent (pandas: `NaN > 0.20` is false). -/
def sigOf (m : Option ℚ) : Bool :=
  match m with
  | some g => decide ((1 : ℚ) / 5 < g)
  | none => false

/-- Models `groupby('Translated_Category')['Installs'].pct_change()`
together with the `Significant_Growth` column: walk the grouped rows in
order, remembering the last installs value seen for each category. -/
def addMoM : List (List Char × ℚ) → List ((Month × List Char) × ℚ) → List Bucket
  | _, [] => []
  | seen, (k, v) :: rest =>
    let m := momOf (alookup seen k.2) v
    ⟨k.1, k.2, v, m, sigOf m⟩ :: addMoM ((k.2, v) :: seen) rest

/-- The growth pipeline `prepare_time_series_data`, from raw rows to the
grouped, growth-annotated buckets. -/
def prepare_time_series_data (rows : List RawRecord) : List Bucket :=
  addMoM [] (groupedPairs (dateStageTS (translateStageTS (appStageTS
    (categoryStageTS (reviewsStageTS (installsStageTS rows)))))))

/-! ## Geo pipeline (`prepare_choropleth_data`) -/

/-- One entry of the external `pycountry` reference table: a country name
and its 3-letter code `alpha_3`.  The table is a parameter of the
embedding; the source builds the name pool and the resolver from this one
table. -/
structure Country where
  name : List Char
  alpha3 : List Char
deriving DecidableEq, Repr

/-- Category exclusion: drop categories starting with `'A'`, `'C'`, `'G'`
or `'S'`. -/
def categoryStageGeo (l : List CRow) : List CRow :=
  l.filter (fun r => !(startsWithAny r.category ['A', 'C', 'G', 'S']))

/-- Ascending key order used by `groupby('Category')`. -/
def catLe (a b : List Char) : Prop := lexLeB a b = true

instance (a b : List Char) : Decidable (catLe a b) := by
  unfold catLe; infer_instance

/-- Models `df.groupby('Category')['Installs'].sum()`: one pair per
distinct category, in sorted category order, with the summed installs. -/
def category_totals (l : List CRow) : List (List Char × ℚ) :=
  (((l.map (fun r => r.category)).dedup).insertionSort catLe).map
    (fun c => (c, ((l.filter (fun r => r.category = c)).map (fun r => r.installs)).sum))

/-- Descending order by summed installs, used by
`sort_values(ascending=False)`. -/
def totGe (a b : List Char × ℚ) : Prop := b.2 ≤ a.2

instance (a b : List Char × ℚ) : Decidable (totGe a b) := by
  unfold totGe; infer_instance

/-- Models `top_categories[top_categories > 1_000_000]
.sort_values(ascending=False).head(5)`: totals above one million, sorted
descending, first five — still paired with their totals. -/
def top5Pairs (l : List CRow) : List (List Char × ℚ) :=
  (((category_totals l).filter (fun p => decide ((1000000 : ℚ) < p.2))).insertionSort
    totGe).take 5

/-- `.index.tolist()`: the category codes of `top5Pairs`. -/
def top5 (l : List CRow) : List (List Char) := (top5Pairs l).map (fun p => p.1)

/-- Models `df[df['Category'].isin(top5)]`. -/
def restrictStageGeo (l : List CRow) : List CRow :=
  l.filter (fun r => (top5 l).contains r.category)

/-- A geo row with its randomly assigned `Country` column. -/
structure GeoRow0 where
  app : List Char
  category : List Char
  installs : ℚ
  reviews : List Char
  lastUpdated : List Char
  country : List Char
deriving DecidableEq, Repr

/-- A geo row with the resolved `iso_alpha` column: the pipeline output. -/
structure GeoRow where
  app : List Char
  category : List Char
  installs : ℚ
  reviews : List Char
  lastUpdated : List Char
  country : List Char
  iso_alpha : List Char
deriving DecidableEq, Repr

/-- Models `random.choices(countries, k=len(df))` followed by the column
assignment: row `i` receives the name of the table entry the random draw
`pick i` selects.  `pick` is the abstract random source; any value it can
take is an index into the table, exactly as `random.choices` can only
return members of its population. -/
def assignStageGeo (table : List Country) (pick : Nat → Fin table.length)
    (l : List CRow) : List GeoRow0 :=
  l.enum.map (fun p =>
    ⟨p.2.app, p.2.category, p.2.installs, p.2.reviews, p.2.lastUpdated,
      (table.get (pick p.1)).name⟩)

/-- The source's `get_iso3`: `pycountry.countries.lookup` is modelled as a
case-insensitive exact-name search of the reference table, returning the
`alpha_3` code of the first match; `None` models the `except` branch on a
failed lookup. -/
def get_iso3 (table : List Country) (country_name : List Char) : Option (List Char) :=
  (table.find? (fun c => pyLower c.name == pyLower country_name)).map
    (fun c => c.alpha3)

/-- Resolution stage: `df['iso_alpha'] = df['Country'].apply(get_iso3)`
followed by `dropna(subset=['iso_alpha'])`. -/
def isoStageGeo (table : List Country) (l : List GeoRow0) : List GeoRow :=
  l.filterMap (fun g => (get_iso3 table g.country).map
    (fun a => ⟨g.app, g.category, g.installs, g.reviews, g.lastUpdated,
      g.country, a⟩))

/-- The geo pipeline `prepare_choropleth_data`, from raw rows to the
choropleth-ready rows, parameterised by the `pycountry` table and the
random draws. -/
def prepare_choropleth_data (table : List Country)
    (pick : Nat → Fin table.length) (rows : List RawRecord) : List GeoRow :=
  isoStageGeo table (assignStageGeo table pick
    (restrictStageGeo (categoryStageGeo (installsStageGeo rows))))

/-! ## Visibility gate -/

/-- `show_map = 18 <= now.hour < 20`, a pure function of the sampled IST
hour. -/
def show_map (hour : Nat) : Bool := decide (18 ≤ hour) && decide (hour < 20)

/-- `show_chart = 18 <= now.hour < 21`. -/
def show_chart (hour : Nat) : Bool := decide (18 ≤ hour) && decide (hour < 21)

/-! ## Whole-program state

The process holds one loaded dataset and one source of randomness (the
`random` module), shared by both pipeline calls.  Only
`prepare_choropleth_data` reads the random source. -/

/-- The in-memory state both pipeline calls run against. -/
structure DashState where
  df_apps : List RawRecord
  countries : List Country
  randomPick : Nat → Fin countries.length

/-- Running the growth pipeline against the process state. -/
def runGrowth (st : DashState) : List Bucket :=
  prepare_time_series_data st.df_apps

/-- Running the geo pipeline against the process state. -/
def runGeo (st : DashState) : List GeoRow :=
  prepare_choropleth_data st.countries st.randomPick st.df_apps

/-! ## The install cleaner with the `'free'` branch removed

Used to settle the refinement claim that the `'free'` special case is
unreachable behind the digit pre-filter. -/

/-- `clean_installs` without its `'free'` branch: parse directly. -/
def clean_installs_noFree (x : List Char) : Option ℚ := pyFloat x

/-- Growth-pipeline install stage with the branch-free cleaner. -/
def installsStageTSAlt (rows : List RawRecord) : List CRow :=
  ((rows.filter (fun r => containsDigit r.installs)).map
      (fun r => { r with installs := stripPlusComma r.installs })).filterMap
    (fun r => (clean_installs_noFree r.installs).map
      (fun v => ⟨r.app, r.category, v, r.reviews, r.lastUpdated⟩))

/-- Geo-pipeline install stage with the branch-free cleaner. -/
def installsStageGeoAlt (rows : List RawRecord) : List CRow :=
  ((rows.filter (fun r => containsDigit r.installs)).map
      (fun r => { r with installs := stripPlusComma r.installs })).filterMap
    (fun r => (clean_installs_noFree r.installs).map
      (fun v => ⟨r.app, r.category, v, r.reviews, r.lastUpdated⟩))

/-- The growth pipeline with the branch-free cleaner. -/
def prepare_time_series_data_alt (rows : List RawRecord) : List Bucket :=
  addMoM [] (groupedPairs (dateStageTS (translateStageTS (appStageTS
    (categoryStageTS (reviewsStageTS (installsStageTSAlt rows)))))))

/-- The geo pipeline with the branch-free cleaner. -/
def prepare_choropleth_data_alt (table : List Country)
    (pick : Nat → Fin table.length) (rows : List RawRecord) : List GeoRow :=
  isoStageGeo table (assignStageGeo table pick
    (restrictStageGeo (categoryStageGeo (installsStageGeoAlt rows))))

/-! ## Character-level lemmas -/

lemma isDigit_facts {c : Char} (h : isDigitCh c = true) :
    (c == '+') = false ∧ (c == ',') = false ∧ isSpaceCh c = false ∧ lowerCh c = c := by
  have hn : 48 ≤ c.toNat ∧ c.toNat ≤ 57 := by simpa [isDigitCh] using h
  refine ⟨?_, ?_, ?_, ?_⟩
  · refine beq_eq_false_iff_ne.mpr fun e => ?_
    rw [e] at h; exact absurd h (by decide)
  · refine beq_eq_false_iff_ne.mpr fun e => ?_
    rw [e] at h; exact absurd h (by decide)
  · simp only [isSpaceCh, Bool.or_eq_false_iff, Bool.and_eq_false_iff,
      decide_eq_false_iff_not]
    omega
  · unfold lowerCh
    rw [if_neg]
    omega

lemma mem_dropWhile_of_not {p : Char → Bool} {c : Char} :
    ∀ {l : List Char}, c ∈ l → p c = false → c ∈ l.dropWhile p := by
  intro l
  induction l with
  | nil => intro h _; exact absurd h (List.not_mem_nil c)
  | cons a as ih =>
    intro hc hp
    rw [List.dropWhile_cons]
    by_cases ha : p a = true
    · rw [if_pos ha]
      rcases List.mem_cons.mp hc with rfl | hc
      · rw [hp] at ha; exact absurd ha (by simp)
      · exact ih hc hp
    · rw [if_neg ha]; exact hc

lemma mem_pyStrip {c : Char} {l : List Char} (hc : c ∈ l)
    (hs : isSpaceCh c = false) : c ∈ pyStrip l := by
  unfold pyStrip
  exact List.mem_reverse.mpr
    (mem_dropWhile_of_not (List.mem_reverse.mpr (mem_dropWhile_of_not hc hs)) hs)

lemma mem_stripPlusComma {c : Char} {l : List Char} (hc : c ∈ l)
    (h1 : (c == '+') = false) (h2 : (c == ',') = false) :
    c ∈ stripPlusComma l :=
  List.mem_filter.mpr ⟨hc, by simp [h1, h2]⟩

lemma containsDigit_stripPlusComma {s : List Char}
    (h : containsDigit s = true) : containsDigit (stripPlusComma s) = true := by
  rcases List.any_eq_true.mp h with ⟨c, hc, hd⟩
  have f := isDigit_facts hd
  exact List.any_eq_true.mpr ⟨c, mem_stripPlusComma hc f.1 f.2.1, hd⟩

/-- Behind the digit pre-filter, the cleaned text can never be the literal
`'free'`: it still has a digit, and `'free'` has none. -/
lemma pyLower_pyStrip_ne_free {t : List Char}
    (h : containsDigit t = true) : pyLower (pyStrip t) ≠ "free".data := by
  rcases List.any_eq_true.mp h with ⟨c, hc, hd⟩
  have f := isDigit_facts hd
  intro e
  have h2 : lowerCh c ∈ pyLower (pyStrip t) :=
    List.mem_map_of_mem _ (mem_pyStrip hc f.2.2.1)
  rw [f.2.2.2, e] at h2
  have : c = 'f' ∨ c = 'r' ∨ c = 'e' ∨ c = 'e' ∨ c ∈ ([] : List Char) := by
    simpa using h2
  rcases this with rfl | rfl | rfl | rfl | hh
  · exact absurd hd (by decide)
  · exact absurd hd (by decide)
  · exact absurd hd (by decide)
  · exact absurd hd (by decide)
  · exact absurd hh (List.not_mem_nil c)

lemma clean_installs_ts_of_digit {t : List Char}
    (h : containsDigit t = true) : clean_installs_ts t = pyFloat t :=
  if_neg (pyLower_pyStrip_ne_free h)

lemma clean_installs_geo_of_digit {t : List Char}
    (h : containsDigit t = true) : clean_installs_geo t = pyFloat t :=
  if_neg (pyLower_pyStrip_ne_free h)

/-! ## The install-cleaning stages as one `filterMap` -/

lemma installsStageTS_eq (rows : List RawRecord) :
    installsStageTS rows = rows.filterMap
      (fun r => (installValueTS r.installs).map
        (fun v => ⟨r.app, r.category, v, r.reviews, r.lastUpdated⟩)) := by
  induction rows with
  | nil => rfl
  | cons r rs ih =>
    unfold installsStageTS at ih ⊢
    by_cases h : containsDigit r.installs
    · simp only [List.filter_cons, h, if_true, List.map_cons, List.filterMap_cons,
        installValueTS, ih]
    · simp only [List.filter_cons, h, Bool.false_eq_true, if_false,
        List.filterMap_cons, installValueTS, ih, Option.map_none']

lemma installsStageGeo_eq (rows : List RawRecord) :
    installsStageGeo rows = rows.filterMap
      (fun r => (installValueGeo r.installs).map
        (fun v => ⟨r.app, r.category, v, r.reviews, r.lastUpdated⟩)) := by
  induction rows with
  | nil => rfl
  | cons r rs ih =>
    unfold installsStageGeo at ih ⊢
    by_cases h : containsDigit r.installs
    · simp only [List.filter_cons, h, if_true, List.map_cons, List.filterMap_cons,
        installValueGeo, ih]
    · simp only [List.filter_cons, h, Bool.false_eq_true, if_false,
        List.filterMap_cons, installValueGeo, ih, Option.map_none']

/-! ## Claim C1: the install-count cleaner -/

/-- A raw row whose `Installs` field is the given text (the other columns
are irrelevant to install cleaning). -/
def rowWithInstalls (s : List Char) : RawRecord :=
  ⟨"A".data, "B".data, s, "1".data, "d".data⟩

/-- C1: the install-count cleaner, applied identically at the head of both
pipelines, maps `"1,000,000+"` to `1000000` and `"0+"` to `0`, maps
`"Free"` and `"abc"` to absent — such rows are dropped, not counted as
zero — strips `'+'` and `','` before numeric parsing, and maps any value
that still fails to parse to absent. -/
theorem c1_install_cleaner :
    installValueTS "1,000,000+".data = some 1000000 ∧
    installValueTS "0+".data = some 0 ∧
    installValueTS "Free".data = none ∧
    installValueTS "abc".data = none ∧
    installsStageTS [rowWithInstalls "Free".data] = [] ∧
    installsStageTS [rowWithInstalls "abc".data] = [] ∧
    (∀ s, installValueGeo s = installValueTS s) ∧
    (∀ rows, installsStageTS rows = rows.filterMap
      (fun r => (installValueTS r.installs).map
        (fun v => ⟨r.app, r.category, v, r.reviews, r.lastUpdated⟩))) ∧
    (∀ rows, installsStageGeo rows = rows.filterMap
      (fun r => (installValueGeo r.installs).map
        (fun v => ⟨r.app, r.category, v, r.reviews, r.lastUpdated⟩))) ∧
    (∀ s, containsDigit s = true →
      installValueTS s = clean_installs_ts (stripPlusComma s)) ∧
    (∀ s, pyFloat (stripPlusComma s) = none → installValueTS s = none) := by
  refine ⟨by decide, by decide, by decide, by decide, by decide, by decide,
    fun s => rfl, installsStageTS_eq, installsStageGeo_eq,
    fun s h => if_pos h, fun s h => ?_⟩
  unfold installValueTS
  by_cases hd : containsDigit s
  · rw [if_pos hd, clean_installs_ts_of_digit (containsDigit_stripPlusComma hd), h]
  · rw [if_neg hd]

/-- Witness for C1 at concrete inputs: `"10,000+"` passes the digit
pre-filter and is handed, stripped, to `clean_installs`, and `"abc"`,
unparseable after stripping, is absent. -/
theorem c1_install_cleaner_witness :
    installValueTS "10,000+".data = clean_installs_ts (stripPlusComma "10,000+".data) ∧
    installValueTS "abc".data = none :=
  ⟨(c1_install_cleaner).2.2.2.2.2.2.2.2.2.1 "10,000+".data (by decide),
   (c1_install_cleaner).2.2.2.2.2.2.2.2.2.2 "abc".data (by decide)⟩

/-! ## Claim C3: end-to-end scenario through the growth pipeline -/

/-- The input row of the end-to-end scenario. -/
def c3Row : RawRecord :=
  ⟨"Foo".data, "BUSINESS".data, "10,000+".data, "600".data, "2018-03-05".data⟩

/-- C3: the scenario row survives the review-count, category-prefix and
app-name filters, is bucketed into month 2018-03 (whose timestamp is the
first day, 2018-03-01), keeps the label `"BUSINESS"` — the original code,
since `"BUSINESS"` is absent from the localization table — and contributes
10000 to that bucket's summed installs; in general any category code
absent from the localization table keeps its original code as its label. -/
theorem c3_end_to_end :
    prepare_time_series_data [c3Row] =
      [⟨⟨2018, 3⟩, "BUSINESS".data, 10000, none, false⟩] ∧
    monthStart ⟨2018, 3⟩ = ⟨2018, 3, 1⟩ ∧
    (∀ c, alookup translations c = none → translate c = c) := by
  refine ⟨?_, rfl, fun c hc => ?_⟩
  · have h1 : installsStageTS [c3Row] =
        [⟨"Foo".data, "BUSINESS".data, 10000, "600".data, "2018-03-05".data⟩] := by
      decide
    have h2 : reviewsStageTS
        [⟨"Foo".data, "BUSINESS".data, 10000, "600".data, "2018-03-05".data⟩] =
        [⟨"Foo".data, "BUSINESS".data, 10000, 600, "600".data, "2018-03-05".data⟩] := by
      decide
    have h3 : appStageTS (categoryStageTS
        [⟨"Foo".data, "BUSINESS".data, 10000, 600, "600".data, "2018-03-05".data⟩]) =
        [⟨"Foo".data, "BUSINESS".data, 10000, 600, "600".data, "2018-03-05".data⟩] := by
      decide
    have h4 : dateStageTS (translateStageTS
        [⟨"Foo".data, "BUSINESS".data, 10000, 600, "600".data, "2018-03-05".data⟩]) =
        [⟨"Foo".data, "BUSINESS".data, "BUSINESS".data, 10000, 600, "600".data,
          ⟨2018, 3⟩⟩] := by
      decide
    have h5 : groupedPairs
        [⟨"Foo".data, "BUSINESS".data, "BUSINESS".data, 10000, 600, "600".data,
          ⟨2018, 3⟩⟩] = [((⟨2018, 3⟩, "BUSINESS".data), 10000)] := by
      norm_num [groupedPairs, groupKey, List.insertionSort, List.orderedInsert,
        List.dedup, List.pwFilter]
    have h6 : addMoM [] [((⟨2018, 3⟩, "BUSINESS".data), 10000)] =
        [⟨⟨2018, 3⟩, "BUSINESS".data, 10000, none, false⟩] := by
      norm_num [addMoM, momOf, sigOf, alookup]
    rw [prepare_time_series_data, h1, h2, h3, h4, h5, h6]
  · unfold translate
    rw [hc]

/-- Witness for C3: `"BUSINESS"` is absent from the localization table and
keeps its original code as its label. -/
theorem c3_end_to_end_witness : translate "BUSINESS".data = "BUSINESS".data :=
  (c3_end_to_end).2.2 "BUSINESS".data (by decide)

/-! ## Claim C4: the visibility gate -/

/-- C4: the visibility gate is a pure function of the sampled IST hour;
the map is visible iff the hour is in `[18, 20)`, the chart iff it is in
`[18, 21)`; hour 19 shows both, hour 20 hides the map but shows the chart,
hours 21 and 17 hide both. -/
theorem c4_visibility_gate :
    (∀ h, show_map h = true ↔ 18 ≤ h ∧ h < 20) ∧
    (∀ h, show_chart h = true ↔ 18 ≤ h ∧ h < 21) ∧
    show_map 19 = true ∧ show_chart 19 = true ∧
    show_map 20 = false ∧ show_chart 20 = true ∧
    show_map 21 = false ∧ show_chart 21 = false ∧
    show_map 17 = false ∧ show_chart 17 = false :=
  ⟨fun h => by simp [show_map], fun h => by simp [show_chart],
   by decide, by decide, by decide, by decide, by decide, by decide,
   by decide, by decide⟩

/-! ## Claim C8: the growth pipeline is deterministic -/

/-- C8: the growth pipeline reads only the dataset from the process state:
two runs over the same dataset, with arbitrary (and arbitrarily different)
random sources and country tables, produce identical bucket sequences —
randomness enters only the geo pipeline's country assignment. -/
theorem c8_growth_deterministic :
    ∀ (df : List RawRecord) (t₁ t₂ : List Country)
      (p₁ : Nat → Fin t₁.length) (p₂ : Nat → Fin t₂.length),
      runGrowth ⟨df, t₁, p₁⟩ = runGrowth ⟨df, t₂, p₂⟩ :=
  fun _ _ _ _ _ => rfl

/-! ## Claim C9: the `'free'` branch of the cleaner is unreachable -/

lemma installsStageTSAlt_eq (rows : List RawRecord) :
    installsStageTSAlt rows = installsStageTS rows := by
  unfold installsStageTSAlt installsStageTS
  refine List.filterMap_congr fun r hr => ?_
  rcases List.mem_map.mp hr with ⟨r0, hr0, rfl⟩
  have hd : containsDigit r0.installs = true := (List.mem_filter.mp hr0).2
  dsimp only
  rw [clean_installs_ts_of_digit (containsDigit_stripPlusComma hd)]
  rfl

lemma installsStageGeoAlt_eq (rows : List RawRecord) :
    installsStageGeoAlt rows = installsStageGeo rows := by
  unfold installsStageGeoAlt installsStageGeo
  refine List.filterMap_congr fun r hr => ?_
  rcases List.mem_map.mp hr with ⟨r0, hr0, rfl⟩
  have hd : containsDigit r0.installs = true := (List.mem_filter.mp hr0).2
  dsimp only
  rw [clean_installs_geo_of_digit (containsDigit_stripPlusComma hd)]
  rfl

/-- C9: every row that reaches `clean_installs` has passed the digit
pre-filter, and a value that still has a digit after stripping `'+'` and
`','` can never equal the literal `'free'`; hence the cleaner with the
`'free'` branch removed agrees with the original on every reachable input,
and removing the branch leaves both pipelines' outputs unchanged on every
dataset. -/
theorem c9_free_branch_unreachable :
    (∀ s, containsDigit s = true →
      clean_installs_ts (stripPlusComma s) = clean_installs_noFree (stripPlusComma s)) ∧
    (∀ rows, prepare_time_series_data_alt rows = prepare_time_series_data rows) ∧
    (∀ (table : List Country) (pick : Nat → Fin table.length) rows,
      prepare_choropleth_data_alt table pick rows =
        prepare_choropleth_data table pick rows) := by
  refine ⟨fun s h => clean_installs_ts_of_digit (containsDigit_stripPlusComma h),
    fun rows => ?_, fun table pick rows => ?_⟩
  · unfold prepare_time_series_data_alt prepare_time_series_data
    rw [installsStageTSAlt_eq]
  · unfold prepare_choropleth_data_alt prepare_choropleth_data
    rw [installsStageGeoAlt_eq]

/-- Witness for C9 at the concrete input `"0+"`: it has a digit, and the
original and branch-free cleaners agree on its stripped value. -/
theorem c9_free_branch_unreachable_witness :
    clean_installs_ts (stripPlusComma "0+".data) =
      clean_installs_noFree (stripPlusComma "0+".data) :=
  (c9_free_branch_unreachable).1 "0+".data (by decide)

/-! ## Claim C5: the top-category set -/

instance : IsTotal (List Char × ℚ) totGe := ⟨fun a b => le_total b.2 a.2⟩

instance : IsTrans (List Char × ℚ) totGe := ⟨fun _ _ _ h1 h2 => le_trans h2 h1⟩

/-- C5: on every dataset the top-category set has at most 5 members, each
member is drawn from the computed category totals with a summed total
strictly above 1,000,000, and the list is ordered by descending total. -/
theorem c5_top_categories (rows : List RawRecord) :
    (top5 (categoryStageGeo (installsStageGeo rows))).length ≤ 5 ∧
    (∀ p ∈ top5Pairs (categoryStageGeo (installsStageGeo rows)),
      p ∈ category_totals (categoryStageGeo (installsStageGeo rows)) ∧
        (1000000 : ℚ) < p.2) ∧
    List.Pairwise totGe (top5Pairs (categoryStageGeo (installsStageGeo rows))) ∧
    (∀ c ∈ top5 (categoryStageGeo (installsStageGeo rows)),
      c ∈ (category_totals (categoryStageGeo (installsStageGeo rows))).map
        (fun q => q.1)) := by
  have hmem : ∀ p ∈ top5Pairs (categoryStageGeo (installsStageGeo rows)),
      p ∈ category_totals (categoryStageGeo (installsStageGeo rows)) ∧
        (1000000 : ℚ) < p.2 := by
    intro p hp
    have h1 := List.take_subset 5 _ hp
    have h2 := (List.mem_insertionSort totGe).mp h1
    have h3 := List.mem_filter.mp h2
    exact ⟨h3.1, of_decide_eq_true h3.2⟩
  refine ⟨?_, hmem, ?_, ?_⟩
  · rw [top5, List.length_map, top5Pairs, List.length_take]
    exact min_le_left _ _
  · exact ((List.sorted_insertionSort totGe _).sublist (List.take_sublist 5 _) :)
  · intro c hc
    rcases List.mem_map.mp hc with ⟨p, hp, rfl⟩
    exact List.mem_map_of_mem _ (hmem p hp).1

/-- A one-row dataset whose single category clears the million-install
threshold, used by concrete witnesses on the geo pipeline. -/
def geoExampleRows : List RawRecord :=
  [⟨"Foo".data, "BUSINESS".data, "2,000,000+".data, "600".data, "2020-01-15".data⟩]

/-- The cleaned form of the single `geoExampleRows` row. -/
def geoExampleC : CRow :=
  ⟨"Foo".data, "BUSINESS".data, 2000000, "600".data, "2020-01-15".data⟩

lemma geoExample_clean :
    categoryStageGeo (installsStageGeo geoExampleRows) = [geoExampleC] := by decide

lemma geoExample_totals :
    category_totals [geoExampleC] = [("BUSINESS".data, 2000000)] := by
  norm_num [category_totals, geoExampleC, List.insertionSort, List.orderedInsert,
    List.dedup, List.pwFilter]

lemma geoExample_top5Pairs :
    top5Pairs [geoExampleC] = [("BUSINESS".data, 2000000)] := by
  rw [top5Pairs, geoExample_totals]
  norm_num [List.insertionSort, List.orderedInsert]

/-- Witness for C5: the concrete member of the top-category set of
`geoExampleRows` is a category-totals entry with total above 1,000,000. -/
theorem c5_top_categories_witness :
    ("BUSINESS".data, (2000000 : ℚ)) ∈
      category_totals (categoryStageGeo (installsStageGeo geoExampleRows)) ∧
      (1000000 : ℚ) < 2000000 :=
  (c5_top_categories geoExampleRows).2.1 ("BUSINESS".data, 2000000)
    (by rw [geoExample_clean, geoExample_top5Pairs]; exact List.mem_singleton.mpr rfl)

/-! ## Claim C6: the growth pipeline's record filters -/

/-- C6: every record reaching the aggregation step of the growth pipeline
has a review count that parsed numerically and is strictly above 500, a
category code starting with `'E'`, `'C'` or `'B'`, and an app name that,
case-insensitively, neither starts with `'x'`, `'y'` or `'z'` nor contains
the letter `'s'`. -/
theorem c6_growth_filters (rows : List RawRecord) (r : DRow)
    (hr : r ∈ dateStageTS (translateStageTS (appStageTS (categoryStageTS
      (reviewsStageTS (installsStageTS rows)))))) :
    to_numeric r.reviewsRaw = some r.reviews ∧
    500 < r.reviews ∧
    startsWithAny r.category ['E', 'C', 'B'] = true ∧
    startsWithAny (pyLower r.app) ['x', 'y', 'z'] = false ∧
    containsLetterS r.app = false := by
  unfold dateStageTS at hr
  rcases List.mem_filterMap.mp hr with ⟨t, ht, hmap⟩
  rcases Option.map_eq_some'.mp hmap with ⟨d, _, rfl⟩
  unfold translateStageTS at ht
  rcases List.mem_map.mp ht with ⟨q, hq, rfl⟩
  unfold appStageTS at hq
  have happ := (List.mem_filter.mp hq).2
  have hq1 := (List.mem_filter.mp hq).1
  unfold categoryStageTS at hq1
  have hcat := (List.mem_filter.mp hq1).2
  have hq2 := (List.mem_filter.mp hq1).1
  unfold reviewsStageTS at hq2
  have hrev := (List.mem_filter.mp hq2).2
  have hq3 := (List.mem_filter.mp hq2).1
  rcases List.mem_filterMap.mp hq3 with ⟨cr, _, hmap2⟩
  rcases Option.map_eq_some'.mp hmap2 with ⟨v, hv, rfl⟩
  rw [Bool.and_eq_true, Bool.not_eq_true', Bool.not_eq_true'] at happ
  refine ⟨hv, of_decide_eq_true hrev, hcat, happ.1, happ.2⟩

/-- Witness for C6: the concrete record produced from the `c3Row` dataset
satisfies all three filter contracts. -/
theorem c6_growth_filters_witness :
    to_numeric "600".data = some 600 ∧
    500 < (600 : ℚ) ∧
    startsWithAny "BUSINESS".data ['E', 'C', 'B'] = true ∧
    startsWithAny (pyLower "Foo".data) ['x', 'y', 'z'] = false ∧
    containsLetterS "Foo".data = false :=
  c6_growth_filters [c3Row]
    ⟨"Foo".data, "BUSINESS".data, "BUSINESS".data, 10000, 600, "600".data, ⟨2018, 3⟩⟩
    (by decide)

/-! ## Claim C7: the geo pipeline's category exclusion -/

/-- C7: the geo pipeline emits no record whose category starts with `'A'`,
`'C'`, `'G'` or `'S'`, and the exclusion precedes the top-category
selection: every selected top category also fails the excluded-prefix
test. -/
theorem c7_geo_exclusion (table : List Country) (pick : Nat → Fin table.length)
    (rows : List RawRecord) :
    (∀ g ∈ prepare_choropleth_data table pick rows,
      startsWithAny g.category ['A', 'C', 'G', 'S'] = false) ∧
    (∀ c ∈ top5 (categoryStageGeo (installsStageGeo rows)),
      startsWithAny c ['A', 'C', 'G', 'S'] = false) := by
  constructor
  · intro g hg
    unfold prepare_choropleth_data isoStageGeo at hg
    rcases List.mem_filterMap.mp hg with ⟨g0, hg0, hmap⟩
    rcases Option.map_eq_some'.mp hmap with ⟨a, _, rfl⟩
    unfold assignStageGeo at hg0
    rcases List.mem_map.mp hg0 with ⟨pr, hpr, rfl⟩
    have h2 : pr.2 ∈ restrictStageGeo (categoryStageGeo (installsStageGeo rows)) := by
      have hm := List.mem_map_of_mem Prod.snd hpr
      rwa [List.enum_map_snd] at hm
    have h3 := (List.mem_filter.mp (List.mem_filter.mp h2).1).2
    simpa using h3
  · intro c hc
    rcases List.mem_map.mp hc with ⟨p, hp, rfl⟩
    have h1 := List.take_subset 5 _ hp
    have h2 := (List.mem_filter.mp ((List.mem_insertionSort totGe).mp h1)).1
    unfold category_totals at h2
    rcases List.mem_map.mp h2 with ⟨k, hk, rfl⟩
    have h3 := List.mem_dedup.mp ((List.mem_insertionSort catLe).mp hk)
    rcases List.mem_map.mp h3 with ⟨r, hr, rfl⟩
    have h4 := (List.mem_filter.mp hr).2
    simpa using h4

/-- The one-entry reference table used by concrete geo witnesses. -/
def c10Table : List Country := [⟨"India".data, "IND".data⟩]

/-- A random source over the one-entry table. -/
def c10Pick : Nat → Fin c10Table.length := fun _ => ⟨0, by decide⟩

/-- Witness for C7: the concrete selected top category of `geoExampleRows`
avoids the excluded prefixes. -/
theorem c7_geo_exclusion_witness :
    startsWithAny "BUSINESS".data ['A', 'C', 'G', 'S'] = false ∧
    ("BUSINESS".data : List Char) ∈
      top5 (categoryStageGeo (installsStageGeo geoExampleRows)) := by
  have htop : top5 (categoryStageGeo (installsStageGeo geoExampleRows)) =
      ["BUSINESS".data] := by
    rw [top5, geoExample_clean, geoExample_top5Pairs]
    rfl
  have hmem : ("BUSINESS".data : List Char) ∈
      top5 (categoryStageGeo (installsStageGeo geoExampleRows)) := by
    rw [htop]; exact List.mem_singleton.mpr rfl
  exact ⟨(c7_geo_exclusion c10Table c10Pick geoExampleRows).2 "BUSINESS".data hmem,
    hmem⟩

/-! ## Claim C10: country assignment and resolution -/

lemma filterMap_length_all_some {α β : Type} (f : α → Option β) :
    ∀ l : List α, (∀ a ∈ l, (f a).isSome = true) →
      (l.filterMap f).length = l.length := by
  intro l
  induction l with
  | nil => intro _; rfl
  | cons a as ih =>
    intro h
    rcases Option.isSome_iff_exists.mp (h a (List.mem_cons_self a as)) with ⟨b, hb⟩
    rw [List.filterMap_cons, hb, List.length_cons, List.length_cons,
      ih fun x hx => h x (List.mem_cons_of_mem a hx)]

lemma get_iso3_isSome {table : List Country} {country_name : List Char}
    (h : country_name ∈ table.map (fun c => c.name)) :
    (get_iso3 table country_name).isSome = true := by
  rcases List.mem_map.mp h with ⟨c, hc, rfl⟩
  unfold get_iso3
  have hf : (List.find? (fun c1 => pyLower c1.name == pyLower c.name) table).isSome
      = true := List.find?_isSome.mpr ⟨c, hc, beq_self_eq_true _⟩
  rcases Option.isSome_iff_exists.mp hf with ⟨x, hx⟩
  rw [hx]
  rfl

lemma assignStageGeo_country {table : List Country} {pick : Nat → Fin table.length}
    {l : List CRow} {g : GeoRow0} (hg : g ∈ assignStageGeo table pick l) :
    g.country ∈ table.map (fun c => c.name) := by
  unfold assignStageGeo at hg
  rcases List.mem_map.mp hg with ⟨pr, _, rfl⟩
  exact List.mem_map_of_mem _ (List.get_mem table _ _)

/-- C10: every synthetic country name is drawn from the same reference
table the resolver queries, so exact-name lookup succeeds for every
assigned country; the defensive drop of unresolved records removes no
rows — the output size equals the number of records restricted to the top
categories — and every output record carries the resolved code of its
country. -/
theorem c10_country_resolution (table : List Country)
    (pick : Nat → Fin table.length) (rows : List RawRecord) :
    (prepare_choropleth_data table pick rows).length =
      (restrictStageGeo (categoryStageGeo (installsStageGeo rows))).length ∧
    (∀ g ∈ prepare_choropleth_data table pick rows,
      g.country ∈ table.map (fun c => c.name) ∧
        get_iso3 table g.country = some g.iso_alpha) := by
  constructor
  · unfold prepare_choropleth_data isoStageGeo
    have hall : ∀ g ∈ assignStageGeo table pick
        (restrictStageGeo (categoryStageGeo (installsStageGeo rows))),
        ((get_iso3 table g.country).map
          (fun a => (⟨g.app, g.category, g.installs, g.reviews, g.lastUpdated,
            g.country, a⟩ : GeoRow))).isSome = true := by
      intro g hg
      rcases Option.isSome_iff_exists.mp
        (get_iso3_isSome (assignStageGeo_country hg)) with ⟨x, hx⟩
      rw [hx]
      rfl
    rw [filterMap_length_all_some _ _ hall]
    unfold assignStageGeo
    rw [List.length_map, List.enum_length]
  · intro g hg
    unfold prepare_choropleth_data isoStageGeo at hg
    rcases List.mem_filterMap.mp hg with ⟨g0, hg0, hmap⟩
    rcases Option.map_eq_some'.mp hmap with ⟨a, ha, rfl⟩
    exact ⟨assignStageGeo_country hg0, ha⟩

/-- Witness for C10: on the concrete dataset the emitted record's country
is in the table and resolves to its 3-letter code. -/
theorem c10_country_resolution_witness :
    ("India".data : List Char) ∈ c10Table.map (fun c => c.name) ∧
      get_iso3 c10Table "India".data = some "IND".data := by
  have hrestrict : restrictStageGeo [geoExampleC] = [geoExampleC] := by
    rw [restrictStageGeo, top5, geoExample_top5Pairs]
    decide
  have hout : prepare_choropleth_data c10Table c10Pick geoExampleRows =
      [⟨"Foo".data, "BUSINESS".data, 2000000, "600".data, "2020-01-15".data,
        "India".data, "IND".data⟩] := by
    rw [prepare_choropleth_data, geoExample_clean, hrestrict]
    decide
  have h := (c10_country_resolution c10Table c10Pick geoExampleRows).2
    ⟨"Foo".data, "BUSINESS".data, 2000000, "600".data, "2020-01-15".data,
      "India".data, "IND".data⟩ (by rw [hout]; exact List.mem_singleton.mpr rfl)
  exact h

/-! ## Claim C2: month-over-month growth

`momChain prev vs` is the sequence of `pct_change` values along one
category's column of installs, starting from an optional carried-in
previous value; `addMoM` is proved to compute exactly this chain on every
category's subsequence. -/

/-- The `pct_change` values along one group's list of installs. -/
def momChain (prev : Option ℚ) : List ℚ → List (Option ℚ)
  | [] => []
  | v :: rest => momOf prev v :: momChain (some v) rest

lemma addMoM_keys : ∀ (l : List ((Month × List Char) × ℚ)) (seen : List (List Char × ℚ)),
    (addMoM seen l).map (fun b => ((b.month, b.tcat), b.installs)) = l := by
  intro l
  induction l with
  | nil => intro seen; rfl
  | cons p rest ih =>
    intro seen
    obtain ⟨k, v⟩ := p
    simp [addMoM, ih]

lemma addMoM_sig : ∀ (l : List ((Month × List Char) × ℚ)) (seen : List (List Char × ℚ)),
    ∀ b ∈ addMoM seen l, b.sig = sigOf b.mom := by
  intro l
  induction l with
  | nil => intro seen b hb; exact absurd hb (List.not_mem_nil b)
  | cons p rest ih =>
    intro seen b hb
    obtain ⟨k, v⟩ := p
    rw [addMoM] at hb
    rcases List.mem_cons.mp hb with rfl | hb
    · rfl
    · exact ih _ b hb

lemma addMoM_filter : ∀ (l : List ((Month × List Char) × ℚ))
    (seen : List (List Char × ℚ)) (c : List Char),
    ((addMoM seen l).filter (fun b => b.tcat == c)).map (fun b => b.installs)
      = (l.filter (fun p => p.1.2 == c)).map (fun p => p.2) ∧
    ((addMoM seen l).filter (fun b => b.tcat == c)).map (fun b => b.mom)
      = momChain (alookup seen c)
          ((l.filter (fun p => p.1.2 == c)).map (fun p => p.2)) := by
  intro l
  induction l with
  | nil => intro seen c; exact ⟨rfl, rfl⟩
  | cons p rest ih =>
    intro seen c
    obtain ⟨k, v⟩ := p
    rw [addMoM]
    by_cases hc : k.2 = c
    · subst hc
      have hlook : alookup ((k.2, v) :: seen) k.2 = some v := by
        rw [alookup, if_pos rfl]
      have ih1 := (ih ((k.2, v) :: seen) k.2).1
      have ih2 := (ih ((k.2, v) :: seen) k.2).2
      rw [hlook] at ih2
      constructor
      · simp [List.filter_cons, ih1]
      · simp [List.filter_cons, momChain, ih1, ih2]
    · have hbeq : (k.2 == c) = false := beq_eq_false_iff_ne.mpr hc
      have hlook : alookup ((k.2, v) :: seen) c = alookup seen c := by
        rw [alookup, if_neg hc]
      have ih1 := (ih ((k.2, v) :: seen) c).1
      have ih2 := (ih ((k.2, v) :: seen) c).2
      rw [hlook] at ih2
      constructor
      · simp [List.filter_cons, hbeq, ih1]
      · simp [List.filter_cons, hbeq, ih1, ih2]

lemma momChain_spec : ∀ (fc : List Bucket) (prev : Option ℚ),
    fc.map (fun b => b.mom) = momChain prev (fc.map (fun b => b.installs)) →
    (∀ b, fc.head? = some b → b.mom = momOf prev b.installs) ∧
    List.Chain' (fun a b => b.mom = momOf (some a.installs) b.installs) fc := by
  intro fc
  induction fc with
  | nil =>
    intro prev _
    refine ⟨fun b h => ?_, List.chain'_nil⟩
    cases h
  | cons x fcr ih =>
    intro prev h
    rw [List.map_cons, List.map_cons, momChain] at h
    injection h with h1 h2
    have ihr := ih (some x.installs) h2
    refine ⟨fun b hb => ?_, List.chain'_cons'.mpr ⟨fun y hy => ihr.1 y hy, ihr.2⟩⟩
    have hb' : x = b := by simpa using hb
    rw [← hb']
    exact h1

/-! ### Total, transitive order on group keys -/

lemma lexLeB_total : ∀ a b : List Char, lexLeB a b = true ∨ lexLeB b a = true := by
  intro a
  induction a with
  | nil => intro b; left; rfl
  | cons x xs ih =>
    intro b
    cases b with
    | nil => right; rfl
    | cons y ys =>
      simp only [lexLeB]
      rcases Nat.lt_trichotomy x.toNat y.toNat with h | h | h
      · left; rw [if_pos h]
      · rcases ih ys with h2 | h2
        · left; rw [if_neg (by omega), if_neg (by omega)]; exact h2
        · right; rw [if_neg (by omega), if_neg (by omega)]; exact h2
      · right; rw [if_pos h]

lemma lexLeB_trans : ∀ a b c : List Char,
    lexLeB a b = true → lexLeB b c = true → lexLeB a c = true := by
  intro a
  induction a with
  | nil => intro b c _ _; rfl
  | cons x xs ih =>
    intro b c hab hbc
    cases b with
    | nil => exact absurd hab (by simp [lexLeB])
    | cons y ys =>
      cases c with
      | nil => exact absurd hbc (by simp [lexLeB])
      | cons z zs =>
        simp only [lexLeB] at hab hbc ⊢
        rcases Nat.lt_trichotomy x.toNat y.toNat with h1 | h1 | h1
        · rcases Nat.lt_trichotomy y.toNat z.toNat with h2 | h2 | h2
          · rw [if_pos (by omega)]
          · rw [if_pos (by omega)]
          · rw [if_neg (by omega), if_pos (by omega)] at hbc
            exact absurd hbc (by simp)
        · rcases Nat.lt_trichotomy y.toNat z.toNat with h2 | h2 | h2
          · rw [if_pos (by omega)]
          · rw [if_neg (by omega), if_neg (by omega)] at hab
            rw [if_neg (by omega), if_neg (by omega)] at hbc
            rw [if_neg (by omega), if_neg (by omega)]
            exact ih ys zs hab hbc
          · rw [if_neg (by omega), if_pos (by omega)] at hbc
            exact absurd hbc (by simp)
        · rw [if_neg (by omega), if_pos (by omega)] at hab
          exact absurd hab (by simp)

instance : IsTotal (Month × List Char) keyRel :=
  ⟨fun a b => by
    obtain ⟨⟨ya, ma⟩, ca⟩ := a
    obtain ⟨⟨yb, mb⟩, cb⟩ := b
    unfold keyRel monthLt
    dsimp only
    rcases Nat.lt_trichotomy ya yb with h | h | h
    · exact Or.inl (Or.inl (Or.inl h))
    · subst h
      rcases Nat.lt_trichotomy ma mb with h2 | h2 | h2
      · exact Or.inl (Or.inl (Or.inr ⟨rfl, h2⟩))
      · subst h2
        rcases lexLeB_total ca cb with hc | hc
        · exact Or.inl (Or.inr ⟨rfl, hc⟩)
        · exact Or.inr (Or.inr ⟨rfl, hc⟩)
      · exact Or.inr (Or.inl (Or.inr ⟨rfl, h2⟩))
    · exact Or.inr (Or.inl (Or.inl h))⟩

instance : IsTrans (Month × List Char) keyRel :=
  ⟨fun a b c hab hbc => by
    obtain ⟨⟨ya, ma⟩, ca⟩ := a
    obtain ⟨⟨yb, mb⟩, cb⟩ := b
    obtain ⟨⟨yc, mc⟩, cc⟩ := c
    unfold keyRel monthLt at hab hbc ⊢
    simp only [Month.mk.injEq] at hab hbc ⊢
    rcases hab with h1 | ⟨⟨e1, e2⟩, hl1⟩
    · rcases hbc with h2 | ⟨⟨f1, f2⟩, _⟩
      · exact Or.inl (by omega)
      · exact Or.inl (by omega)
    · rcases hbc with h2 | ⟨⟨f1, f2⟩, hl2⟩
      · exact Or.inl (by omega)
      · exact Or.inr ⟨⟨by omega, by omega⟩, lexLeB_trans ca cb cc hl1 hl2⟩⟩

lemma groupedPairs_fst (l : List DRow) :
    (groupedPairs l).map (fun p => p.1)
      = ((l.map groupKey).dedup).insertionSort keyRel := by
  unfold groupedPairs
  rw [List.map_map]
  exact List.map_id _ ▸ rfl

lemma groupedPairs_sorted (l : List DRow) :
    List.Sorted keyRel ((groupedPairs l).map (fun p => p.1)) := by
  rw [groupedPairs_fst]
  exact List.sorted_insertionSort keyRel _

lemma groupedPairs_nodup (l : List DRow) :
    ((groupedPairs l).map (fun p => p.1)).Nodup := by
  rw [groupedPairs_fst]
  exact (List.perm_insertionSort keyRel _).symm.nodup (List.nodup_dedup _)

/-- The grouped, growth-annotated output is pairwise ordered: any later
bucket of the same category has a strictly later month. -/
lemma addMoM_month_pairwise (l : List DRow) :
    List.Pairwise (fun a b : Bucket => a.tcat = b.tcat → monthLt a.month b.month)
      (addMoM [] (groupedPairs l)) := by
  have hkeys : (addMoM [] (groupedPairs l)).map (fun b => (b.month, b.tcat))
      = (groupedPairs l).map (fun p => p.1) := by
    calc (addMoM [] (groupedPairs l)).map (fun b => (b.month, b.tcat))
        = ((addMoM [] (groupedPairs l)).map
            (fun b => ((b.month, b.tcat), b.installs))).map (fun q => q.1) := by
          rw [List.map_map]; rfl
      _ = (groupedPairs l).map (fun p => p.1) := by rw [addMoM_keys]
  have hsorted : List.Pairwise keyRel
      ((addMoM [] (groupedPairs l)).map (fun b => (b.month, b.tcat))) := by
    rw [hkeys]; exact groupedPairs_sorted l
  have hnodup : ((addMoM [] (groupedPairs l)).map
      (fun b => (b.month, b.tcat))).Nodup := by
    rw [hkeys]; exact groupedPairs_nodup l
  have hp := List.pairwise_map.mp (hsorted.and hnodup)
  refine hp.imp ?_
  rintro a b ⟨hr, hne⟩ htc
  rcases hr with h | ⟨hm, _⟩
  · exact h
  · exact absurd (Prod.ext hm htc) hne

/-- First-bucket and consecutive-bucket behaviour of the growth
annotation, on any category's subsequence of the grouped output. -/
lemma addMoM_groupedPairs_spec (l : List DRow) (c : List Char) :
    (∀ b, ((addMoM [] (groupedPairs l)).filter (fun b => b.tcat == c)).head?
        = some b → b.mom = none) ∧
    List.Chain' (fun a b => b.mom = some ((b.installs - a.installs) / a.installs))
      ((addMoM [] (groupedPairs l)).filter (fun b => b.tcat == c)) := by
  have h := addMoM_filter (groupedPairs l) [] c
  have h2 := h.2
  rw [← h.1] at h2
  have hs := momChain_spec _ none h2
  exact ⟨fun b hb => hs.1 b hb, hs.2⟩

/-- The months of any category's subsequence of the grouped output are
strictly increasing. -/
lemma addMoM_fc_months (l : List DRow) (c : List Char) :
    List.Pairwise monthLt
      (((addMoM [] (groupedPairs l)).filter (fun b => b.tcat == c)).map
        (fun b => b.month)) := by
  have hp := (addMoM_month_pairwise l).filter (fun b => b.tcat == c)
  refine List.pairwise_map.mpr (hp.imp_of_mem ?_)
  intro a b ha hb h
  have hac : a.tcat = c := by simpa using (List.mem_filter.mp ha).2
  have hbc : b.tcat = c := by simpa using (List.mem_filter.mp hb).2
  exact h (hac.trans hbc.symm)

lemma addMoM_sig_iff (l : List DRow) (b : Bucket)
    (hb : b ∈ addMoM [] (groupedPairs l)) :
    b.sig = true ↔ ∃ g, b.mom = some g ∧ (1 : ℚ) / 5 < g := by
  rw [addMoM_sig _ _ b hb]
  cases hm : b.mom with
  | none => simp [sigOf]
  | some g => simp [sigOf]

/-- A six-row dataset: three categories over two months, with
month-over-month factors 1.5 (significant), 1.10 and exactly 1.20 (both
not significant). -/
def growthExampleRows : List RawRecord :=
  [⟨"Foo".data, "BUSINESS".data, "100".data, "600".data, "2020-01-15".data⟩,
   ⟨"Foo".data, "EDUCATION".data, "100".data, "600".data, "2020-01-20".data⟩,
   ⟨"Foo".data, "COMICS".data, "100".data, "600".data, "2020-01-25".data⟩,
   ⟨"Foo".data, "BUSINESS".data, "150".data, "600".data, "2020-02-15".data⟩,
   ⟨"Foo".data, "EDUCATION".data, "110".data, "600".data, "2020-02-20".data⟩,
   ⟨"Foo".data, "COMICS".data, "120".data, "600".data, "2020-02-25".data⟩]

/-- A dated row of the example dataset. -/
def gD (cat : List Char) (inst : ℚ) (mo : Nat) : DRow :=
  ⟨"Foo".data, cat, cat, inst, 600, "600".data, ⟨2020, mo⟩⟩

/-- The example dataset after all row-level stages. -/
def growthExampleD : List DRow :=
  [gD "BUSINESS".data 100 1, gD "EDUCATION".data 100 1, gD "COMICS".data 100 1,
   gD "BUSINESS".data 150 2, gD "EDUCATION".data 110 2, gD "COMICS".data 120 2]

/-- The grouped (month, category) sums of the example dataset. -/
def growthExampleGrouped : List ((Month × List Char) × ℚ) :=
  [((⟨2020, 1⟩, "BUSINESS".data), 100), ((⟨2020, 1⟩, "COMICS".data), 100),
   ((⟨2020, 1⟩, "EDUCATION".data), 100), ((⟨2020, 2⟩, "BUSINESS".data), 150),
   ((⟨2020, 2⟩, "COMICS".data), 120), ((⟨2020, 2⟩, "EDUCATION".data), 110)]

/-- The growth pipeline's output on the example dataset: first months
carry no growth value; 100 → 150 gives 1/2 (significant), 100 → 120 gives
exactly 1/5 (not significant), 100 → 110 gives 1/10 (not significant). -/
def growthExampleOut : List Bucket :=
  [⟨⟨2020, 1⟩, "BUSINESS".data, 100, none, false⟩,
   ⟨⟨2020, 1⟩, "COMICS".data, 100, none, false⟩,
   ⟨⟨2020, 1⟩, "EDUCATION".data, 100, none, false⟩,
   ⟨⟨2020, 2⟩, "BUSINESS".data, 150, some (1/2), true⟩,
   ⟨⟨2020, 2⟩, "COMICS".data, 120, some (1/5), false⟩,
   ⟨⟨2020, 2⟩, "EDUCATION".data, 110, some (1/10), false⟩]

lemma growthExample_dated :
    dateStageTS (translateStageTS (appStageTS (categoryStageTS (reviewsStageTS
      (installsStageTS growthExampleRows))))) = growthExampleD := by decide

lemma growthExample_grouped : groupedPairs growthExampleD = growthExampleGrouped := by
  unfold groupedPairs
  rw [(by decide : ((growthExampleD.map groupKey).dedup).insertionSort keyRel =
    [(⟨2020, 1⟩, "BUSINESS".data), (⟨2020, 1⟩, "COMICS".data),
     (⟨2020, 1⟩, "EDUCATION".data), (⟨2020, 2⟩, "BUSINESS".data),
     (⟨2020, 2⟩, "COMICS".data), (⟨2020, 2⟩, "EDUCATION".data)])]
  simp only [List.map_cons, List.map_nil]
  rw [(by decide : growthExampleD.filter
        (fun r => groupKey r = ((⟨2020, 1⟩, "BUSINESS".data) : Month × List Char)) =
      [gD "BUSINESS".data 100 1])]
  rw [(by decide : growthExampleD.filter
        (fun r => groupKey r = ((⟨2020, 1⟩, "COMICS".data) : Month × List Char)) =
      [gD "COMICS".data 100 1])]
  rw [(by decide : growthExampleD.filter
        (fun r => groupKey r = ((⟨2020, 1⟩, "EDUCATION".data) : Month × List Char)) =
      [gD "EDUCATION".data 100 1])]
  rw [(by decide : growthExampleD.filter
        (fun r => groupKey r = ((⟨2020, 2⟩, "BUSINESS".data) : Month × List Char)) =
      [gD "BUSINESS".data 150 2])]
  rw [(by decide : growthExampleD.filter
        (fun r => groupKey r = ((⟨2020, 2⟩, "COMICS".data) : Month × List Char)) =
      [gD "COMICS".data 120 2])]
  rw [(by decide : growthExampleD.filter
        (fun r => groupKey r = ((⟨2020, 2⟩, "EDUCATION".data) : Month × List Char)) =
      [gD "EDUCATION".data 110 2])]
  norm_num [gD, growthExampleGrouped]

lemma growthExample_annotated :
    addMoM [] growthExampleGrouped = growthExampleOut := by
  unfold growthExampleGrouped growthExampleOut
  simp only [addMoM]
  rw [(by decide : alookup [] "BUSINESS".data = none)]
  rw [(by decide : alookup [("BUSINESS".data, (100 : ℚ))] "COMICS".data = none)]
  rw [(by decide : alookup [("COMICS".data, (100 : ℚ)), ("BUSINESS".data, 100)]
    "EDUCATION".data = none)]
  rw [(by decide : alookup [("EDUCATION".data, (100 : ℚ)), ("COMICS".data, 100),
    ("BUSINESS".data, 100)] "BUSINESS".data = some 100)]
  rw [(by decide : alookup [("BUSINESS".data, (150 : ℚ)), ("EDUCATION".data, 100),
    ("COMICS".data, 100), ("BUSINESS".data, 100)] "COMICS".data = some 100)]
  rw [(by decide : alookup [("COMICS".data, (120 : ℚ)), ("BUSINESS".data, 150),
    ("EDUCATION".data, 100), ("COMICS".data, 100), ("BUSINESS".data, 100)]
    "EDUCATION".data = some 100)]
  norm_num [momOf, sigOf]

/-- C2: in the growth pipeline output, for every category, the first
chronological bucket carries no MoM value; each later bucket's MoM value
is (current − previous) / previous relative to the immediately preceding
bucket of its category; the per-category months are strictly increasing;
a bucket is significant iff its MoM value exists and strictly exceeds
1/5; and on the concrete example, 100 → 150 gives 1/2 (significant),
100 → 110 gives 1/10 and 100 → 120 gives exactly 1/5 (both not
significant). -/
theorem c2_mom_growth (rows : List RawRecord) (c : List Char) :
    (∀ b, ((prepare_time_series_data rows).filter
        (fun b => b.tcat == c)).head? = some b → b.mom = none) ∧
    List.Chain' (fun a b => b.mom = some ((b.installs - a.installs) / a.installs))
      ((prepare_time_series_data rows).filter (fun b => b.tcat == c)) ∧
    List.Pairwise monthLt
      (((prepare_time_series_data rows).filter (fun b => b.tcat == c)).map
        (fun b => b.month)) ∧
    (∀ b ∈ prepare_time_series_data rows,
      (b.sig = true ↔ ∃ g, b.mom = some g ∧ (1 : ℚ) / 5 < g)) ∧
    prepare_time_series_data growthExampleRows = growthExampleOut := by
  refine ⟨(addMoM_groupedPairs_spec _ c).1, (addMoM_groupedPairs_spec _ c).2,
    addMoM_fc_months _ c, fun b hb => addMoM_sig_iff _ b hb, ?_⟩
  show addMoM [] (groupedPairs (dateStageTS (translateStageTS (appStageTS
    (categoryStageTS (reviewsStageTS (installsStageTS growthExampleRows)))))))
      = growthExampleOut
  rw [growthExample_dated, growthExample_grouped, growthExample_annotated]

/-- Witness for C2 at the concrete example: the first BUSINESS bucket
carries no MoM value, and the second BUSINESS bucket (MoM = 1/2) is
significant. -/
theorem c2_mom_growth_witness :
    (⟨⟨2020, 1⟩, "BUSINESS".data, 100, none, false⟩ : Bucket).mom = none ∧
    ((⟨⟨2020, 2⟩, "BUSINESS".data, 150, some (1/2), true⟩ : Bucket).sig = true ↔
      ∃ g, (⟨⟨2020, 2⟩, "BUSINESS".data, 150, some (1/2), true⟩ : Bucket).mom
        = some g ∧ (1 : ℚ) / 5 < g) := by
  have h := c2_mom_growth growthExampleRows "BUSINESS".data
  refine ⟨h.1 _ ?_, h.2.2.2.1 _ ?_⟩
  · rw [h.2.2.2.2]
    rfl
  · rw [h.2.2.2.2]
    exact List.mem_cons_of_mem _ (List.mem_cons_of_mem _ (List.mem_cons_of_mem _
      (List.mem_cons_self _ _)))

end Dashboard
